import Mathlib

/-!
Shallow embedding of the asterion-scraper repository (CyberVerse2/asterion-scraper).

The authoritative code is the MongoDB-backed, per-chapter resumable scraper
variant in src/scraper.ts: the functions `scrapeNovelDetails`,
`scrapeChapterContent` and the orchestrating `main` (batch loop over
`startUrls`, per-novel metadata upsert, resume-cursor query, chapter loop with
per-chapter persistence), together with the store semantics of the Mongoose
models in models/Novel.ts (a `Novel` collection keyed by `novelUrl`, a
`Chapter` collection keyed by the `(novel, chapterNumber)` pair, and the
novel's `chapters` array of references maintained with `$addToSet`).

Network I/O and database outcomes are modelled by explicit oracles
(`FetchOutcome`, `ChapterUpsertOutcome`, ...); the persisted store is a pair
of association lists mirroring the two collections; run statistics mirror the
`stats` object of `main`.  Wall-clock fields of the stats object
(start/end/duration) and the log stream are not modelled; no claim concerns
them.  Besides the mutated store and counters, the run state records the
observable call traces (fetches, chapter upsert attempts, reference-add
attempts) so that "operation X was attempted" is expressible.
-/

namespace Asterion

/-! ## Definitions: the embedded program, its store, and oracle types -/

/-- JS truthiness of a `string | null` value: `null` and `""` are falsy. -/
def truthy : Option String → Bool
  | none => false
  | some s => s ≠ ""

/-- Characters treated as whitespace by JS `parseInt` before the number. -/
def isJsSpace (c : Char) : Bool :=
  c = ' ' || c = '\t' || c = '\n' || c = '\r'

/-- Numeric value of a list of decimal digit characters. -/
def digitsToNat (ds : List Char) : Nat :=
  ds.foldl (fun a c => 10 * a + (c.toNat - 48)) 0

/-- Value of the maximal decimal-digit prefix of a character list, or `none`
when there is no leading digit (JS `NaN`). -/
def leadingNumber (cs : List Char) : Option Nat :=
  let ds := cs.takeWhile Char.isDigit
  if ds.isEmpty then none else some (digitsToNat ds)

/-- JS `parseInt(s, 10)`: skip leading whitespace, optional sign, then the
maximal run of decimal digits; `none` models `NaN`. -/
def parseIntJs (s : String) : Option Int :=
  match s.data.dropWhile isJsSpace with
  | '-' :: rest => (leadingNumber rest).map (fun n => -(n : Int))
  | '+' :: rest => (leadingNumber rest).map (fun n => (n : Int))
  | rest => (leadingNumber rest).map (fun n => (n : Int))

/-- JS `s.trim()`: drop leading and trailing whitespace.  (Defined from
first principles so that it reduces inside the kernel.) -/
def jsTrim (s : String) : String :=
  String.mk (((s.data.dropWhile isJsSpace).reverse.dropWhile isJsSpace).reverse)

/-- JS `s.replace(/,/g, '')`: delete every comma. -/
def stripCommas (s : String) : String :=
  String.mk (s.data.filter (fun c => c ≠ ','))

/-- The part of a string before the first occurrence of a separator, the whole
string when the separator does not occur: JS `s.split(sep)[0]`. -/
def beforeFirst (sep : List Char) : List Char → List Char
  | [] => []
  | c :: rest => if sep.isPrefixOf (c :: rest) then [] else c :: beforeFirst sep rest

/-- `novelDetails.chaptersUrl.split('/chapters')[0]` in `main`. -/
def chaptersBase (chaptersUrl : String) : String :=
  String.mk (beforeFirst ("/chapters".data) chaptersUrl.data)

/-- Result shape of `scrapeNovelDetails` (all-`none` when the landing-page
fetch failed, since that function catches its own errors and returns a
default object). -/
structure NovelDetails where
  title : Option String
  author : Option String
  rank : Option String
  chapters : Option String
  views : Option String
  bookmarks : Option String
  status : Option String
  genres : List String
  summary : Option String
  chaptersUrl : Option String
  imageUrl : Option String
deriving DecidableEq, Repr

/-- Result shape of `scrapeChapterContent`. -/
structure ChapterData where
  url : String
  chapterNumber : Nat
  title : String
  content : Option String
deriving DecidableEq, Repr

/-- Oracle for one chapter-page HTTP fetch: either `axios.get` threw, or it
returned a page from which the extractor read a (trimmed) title and the raw
HTML of `#content` (`none` when the selector matched nothing). -/
inductive FetchOutcome where
  | err : FetchOutcome
  | page (chapterTitle : String) (rawHtml : Option String) : FetchOutcome
deriving DecidableEq, Repr

/-- `scrapeChapterContent` (src/scraper.ts): on a fetched page the content is
`rawHtmlContent ? rawHtmlContent.trim() : null` and the title defaults to
`'Untitled Chapter'`; on a thrown fetch error the catch block returns a
`ChapterData` with `content: null` and an error placeholder title. -/
def scrapeChapterContent (outcome : FetchOutcome) (chapterUrl : String) (chapterNumber : Nat) :
    ChapterData :=
  match outcome with
  | FetchOutcome.err =>
      { url := chapterUrl, chapterNumber := chapterNumber,
        title := "Error Scraping Title", content := none }
  | FetchOutcome.page t raw =>
      let chapterContent : Option String :=
        match raw with
        | none => none
        | some h => if h = "" then none else some (jsTrim h)
      { url := chapterUrl, chapterNumber := chapterNumber,
        title := if t = "" then "Untitled Chapter" else t,
        content := chapterContent }

/-- The content field of `scrapeChapterContent` does not depend on the URL or
chapter number; this abbreviation names it for a given fetch outcome. -/
def extractedContent (f : FetchOutcome) : Option String :=
  (scrapeChapterContent f "" 0).content

/-- A persisted novel document (models/Novel.ts `NovelSchema`); `chapters` is
the array of references to this novel's chapter documents, identified here by
chapter number since the chapter key is the `(novel, chapterNumber)` pair. -/
structure NovelRecord where
  title : Option String
  author : Option String
  rank : Option String
  totalChapters : Option String
  views : Option String
  bookmarks : Option String
  status : Option String
  genres : List String
  summary : Option String
  chaptersUrl : Option String
  imageUrl : Option String
  lastScraped : Nat
  chapters : List Nat
deriving DecidableEq, Repr

/-- The fields of a persisted chapter document set by the chapter upsert. -/
structure ChapterFields where
  url : String
  title : String
  content : String
deriving DecidableEq, Repr

/-- Association-list lookup by decidable key equality. -/
def alookup {α β : Type} [DecidableEq α] (k : α) : List (α × β) → Option β
  | [] => none
  | (k', v) :: rest => if k' = k then some v else alookup k rest

/-- Association-list update-or-append by decidable key equality. -/
def aset {α β : Type} [DecidableEq α] (k : α) (v : β) : List (α × β) → List (α × β)
  | [] => [(k, v)]
  | (k', v') :: rest => if k' = k then (k, v) :: rest else (k', v') :: aset k v rest

/-- The persisted state: the `novels` collection keyed by `novelUrl` and the
`chapters` collection keyed by `(novelUrl of owner, chapterNumber)`. -/
structure Store where
  novels : List (String × NovelRecord)
  chapterDocs : List ((String × Nat) × ChapterFields)
deriving DecidableEq, Repr

/-- The store with both collections empty. -/
def emptyStore : Store := { novels := [], chapterDocs := [] }

/-- Base document for an upsert-created novel: only the `$set` fields are
written, so the reference array starts out empty (its schema default). -/
def freshNovel : NovelRecord :=
  { title := none, author := none, rank := none, totalChapters := none,
    views := none, bookmarks := none, status := none, genres := [],
    summary := none, chaptersUrl := none, imageUrl := none,
    lastScraped := 0, chapters := [] }

/-- The `$set` document of the novel upsert in `main` (src/scraper.ts):
every metadata field is overwritten from the freshly scraped details plus the
current time; the `chapters` reference array is not in the `$set` and is kept
from the previous document. -/
def applyNovelSet (d : NovelDetails) (now : Nat) (old : NovelRecord) : NovelRecord :=
  { title := d.title, author := d.author, rank := d.rank,
    totalChapters := d.chapters, views := d.views, bookmarks := d.bookmarks,
    status := d.status, genres := d.genres, summary := d.summary,
    chaptersUrl := d.chaptersUrl, imageUrl := d.imageUrl,
    lastScraped := now, chapters := old.chapters }

/-- `Novel.findOneAndUpdate({novelUrl}, {$set: ...}, {upsert: true, ...})`. -/
def upsertNovel (s : Store) (novelUrl : String) (d : NovelDetails) (now : Nat) : Store :=
  let old := (alookup novelUrl s.novels).getD freshNovel
  { s with novels := aset novelUrl (applyNovelSet d now old) s.novels }

/-- The chapter numbers of the chapter documents belonging to one novel. -/
def chapterNumbersOf (s : Store) (novelUrl : String) : List Nat :=
  (s.chapterDocs.filter (fun e => e.fst.fst = novelUrl)).map (fun e => e.fst.snd)

/-- `Chapter.findOne({novel}).sort({chapterNumber: -1}).select('chapterNumber')`:
the largest chapter number persisted for the novel, `none` when it has no
chapter documents. -/
def getHighestChapterNumber (s : Store) (novelUrl : String) : Option Nat :=
  match chapterNumbersOf s novelUrl with
  | [] => none
  | n :: ns => some (ns.foldl max n)

/-- `Chapter.findOneAndUpdate({novel, chapterNumber}, {$set: ...}, {upsert:
true, ...})`: create or overwrite the chapter document at its key. -/
def upsertChapter (s : Store) (novelUrl : String) (n : Nat) (f : ChapterFields) : Store :=
  { s with chapterDocs := aset (novelUrl, n) f s.chapterDocs }

/-- `Novel.updateOne({_id}, {$addToSet: {chapters: savedChapter._id}})`:
append the chapter reference to the novel's array unless already present; a
no-op when the novel document does not exist. -/
def addChapterReference (s : Store) (novelUrl : String) (n : Nat) : Store :=
  match alookup novelUrl s.novels with
  | none => s
  | some r =>
      let r' : NovelRecord :=
        { r with chapters := if n ∈ r.chapters then r.chapters else r.chapters ++ [n] }
      { s with novels := aset novelUrl r' s.novels }

/-- The counters of the `stats` object in `main` (src/scraper.ts).  The
wall-clock fields (`startTime`, `endTime`, `durationSeconds`) are omitted. -/
structure Stats where
  novelsProcessed : Nat := 0
  chaptersAttempted : Nat := 0
  chaptersScrapedSuccess : Nat := 0
  chaptersScrapedError : Nat := 0
  chaptersWithEmptyContent : Nat := 0
  dbNovelUpdateSuccess : Nat := 0
  dbChapterUpdateSuccess : Nat := 0
  dbErrors : Nat := 0
  novelsSkippedOrFailed : Nat := 0
deriving DecidableEq, Repr

/-- Componentwise sum of two counter records. -/
def Stats.add (a b : Stats) : Stats :=
  { novelsProcessed := a.novelsProcessed + b.novelsProcessed,
    chaptersAttempted := a.chaptersAttempted + b.chaptersAttempted,
    chaptersScrapedSuccess := a.chaptersScrapedSuccess + b.chaptersScrapedSuccess,
    chaptersScrapedError := a.chaptersScrapedError + b.chaptersScrapedError,
    chaptersWithEmptyContent := a.chaptersWithEmptyContent + b.chaptersWithEmptyContent,
    dbNovelUpdateSuccess := a.dbNovelUpdateSuccess + b.dbNovelUpdateSuccess,
    dbChapterUpdateSuccess := a.dbChapterUpdateSuccess + b.dbChapterUpdateSuccess,
    dbErrors := a.dbErrors + b.dbErrors,
    novelsSkippedOrFailed := a.novelsSkippedOrFailed + b.novelsSkippedOrFailed }

/-- All counters zero. -/
def Stats.zero : Stats := {}

/-- Outcome oracle for the chapter-document upsert: the promise resolved with
the document, resolved with `null`, or rejected. -/
inductive ChapterUpsertOutcome where
  | ok
  | okNone
  | threw
deriving DecidableEq, Repr

/-- Outcome oracle for the `$addToSet` reference update on the novel. -/
inductive RefAddOutcome where
  | ok
  | threw
deriving DecidableEq, Repr

/-- Oracle describing everything the environment decides for one chapter
iteration: the page fetch, the two database operations, and whether the
trailing inter-request `delay` call rejects (the only modelled way an
exception reaches the per-chapter `catch`, which feeds
`chaptersScrapedError`). -/
structure ChapterOracle where
  fetch : FetchOutcome
  upsert : ChapterUpsertOutcome
  addRef : RefAddOutcome
  lateThrow : Bool
deriving DecidableEq, Repr

/-- Outcome oracle for the novel-document upsert in `main`. -/
inductive NovelUpsertOutcome where
  | ok
  | okNone
  | threw
deriving DecidableEq, Repr

/-- Oracle describing the environment for one novel: the scraped details, the
novel-upsert outcome, whether the resume-cursor query throws, and the
per-chapter oracles. -/
structure NovelOracle where
  details : NovelDetails
  novelUpsert : NovelUpsertOutcome
  cursorQueryThrows : Bool
  chapterOracle : Nat → ChapterOracle

/-- Mutable state threaded through a run: the persisted store, the statistics
counters, and the observable call traces — chapter pages fetched, chapter
upserts attempted, reference additions attempted — each recorded as
`(novelUrl, chapterNumber)` in execution order. -/
structure RunState where
  store : Store
  stats : Stats
  fetched : List (String × Nat)
  upsertCalls : List (String × Nat)
  refCalls : List (String × Nat)
deriving DecidableEq, Repr

/-- Initial run state over a given persisted store. -/
def RunState.init (s : Store) : RunState :=
  { store := s, stats := {}, fetched := [], upsertCalls := [], refCalls := [] }

/-- One iteration of the chapter loop of `main` (src/scraper.ts): count the
attempt, fetch and extract the chapter page; on truthy content, upsert the
chapter document and — only if that returned a document — add the chapter
reference to the novel; on empty/missing content count it as empty and skip
persistence; an exception escaping to the loop's catch is counted as a
scrape error.  Every failure path falls through to the next iteration. -/
def chapterStep (novelUrl base : String) (ora : Nat → ChapterOracle)
    (st : RunState) (i : Nat) : RunState :=
  let o := ora i
  let chapterUrl := base ++ "/chapter-" ++ toString i
  let st := { st with
    stats := { st.stats with chaptersAttempted := st.stats.chaptersAttempted + 1 },
    fetched := st.fetched ++ [(novelUrl, i)] }
  let cd := scrapeChapterContent o.fetch chapterUrl i
  let st :=
    match cd.content with
    | some c =>
        if c = "" then
          { st with stats :=
              { st.stats with chaptersWithEmptyContent := st.stats.chaptersWithEmptyContent + 1 } }
        else
          let st := { st with
            stats := { st.stats with
              chaptersScrapedSuccess := st.stats.chaptersScrapedSuccess + 1 },
            upsertCalls := st.upsertCalls ++ [(novelUrl, i)] }
          match o.upsert with
          | ChapterUpsertOutcome.threw =>
              { st with stats := { st.stats with dbErrors := st.stats.dbErrors + 1 } }
          | ChapterUpsertOutcome.okNone =>
              { st with
                store := upsertChapter st.store novelUrl i
                  { url := cd.url, title := cd.title, content := c },
                stats := { st.stats with dbErrors := st.stats.dbErrors + 1 } }
          | ChapterUpsertOutcome.ok =>
              let st := { st with
                store := upsertChapter st.store novelUrl i
                  { url := cd.url, title := cd.title, content := c },
                stats := { st.stats with
                  dbChapterUpdateSuccess := st.stats.dbChapterUpdateSuccess + 1 },
                refCalls := st.refCalls ++ [(novelUrl, i)] }
              match o.addRef with
              | RefAddOutcome.ok => { st with store := addChapterReference st.store novelUrl i }
              | RefAddOutcome.threw =>
                  { st with stats := { st.stats with dbErrors := st.stats.dbErrors + 1 } }
    | none =>
        { st with stats :=
            { st.stats with chaptersWithEmptyContent := st.stats.chaptersWithEmptyContent + 1 } }
  if o.lateThrow then
    { st with stats :=
        { st.stats with chaptersScrapedError := st.stats.chaptersScrapedError + 1 } }
  else st

/-- The chapter loop of `main` folded over an explicit list of chapter
numbers (in the program this list is `startChapterNumber .. latestChapterNumber`). -/
def chapterLoop (novelUrl base : String) (ora : Nat → ChapterOracle)
    (st : RunState) (l : List Nat) : RunState :=
  l.foldl (chapterStep novelUrl base ora) st

/-- Parsing of the declared chapter count in `main`: strip commas, JS
`parseInt` base 10, accept only a value `> 0`; `none` for an absent string,
an unparseable one, or a non-positive value. -/
def resolveTarget (chapters : Option String) : Option Nat :=
  match chapters with
  | none => none
  | some s =>
      match parseIntJs (stripCommas s) with
      | none => none
      | some k => if 0 < k then some k.toNat else none

/-- The resume-cursor computation of `main`: on a query error, start from
chapter 1 (and report the error, second component); otherwise start just
after the highest persisted chapter, or at 1 when the query returned nothing
(the code's truthiness test also sends a chapter number of 0 to 1). -/
def resumeCursor (queryThrows : Bool) (s : Store) (startUrl : String) : Nat × Bool :=
  if queryThrows then (1, true)
  else
    match getHighestChapterNumber s startUrl with
    | some k => if 0 < k then (k + 1, false) else (1, false)
    | none => (1, false)

/-- The body of `main`'s per-URL loop (src/scraper.ts) for one novel: check
the essential details, resolve the chapter target, upsert the novel document
(a throw is re-thrown and caught by the per-URL catch, counting the novel as
skipped), query the resume cursor (falling back to chapter 1 on a query
error), skip the loop when the cursor exceeds the target, and otherwise run
the chapter loop from the cursor to the target. -/
def processNovel (startUrl : String) (o : NovelOracle) (now : Nat) (st : RunState) : RunState :=
  let d := o.details
  if !truthy d.title || !truthy d.chaptersUrl then
    { st with stats :=
        { st.stats with novelsSkippedOrFailed := st.stats.novelsSkippedOrFailed + 1 } }
  else
    match resolveTarget d.chapters with
    | none =>
        { st with stats :=
            { st.stats with novelsSkippedOrFailed := st.stats.novelsSkippedOrFailed + 1 } }
    | some latest =>
        match o.novelUpsert with
        | NovelUpsertOutcome.threw =>
            { st with stats := { st.stats with
                dbErrors := st.stats.dbErrors + 1,
                novelsSkippedOrFailed := st.stats.novelsSkippedOrFailed + 1 } }
        | NovelUpsertOutcome.okNone =>
            { st with
              store := upsertNovel st.store startUrl d now,
              stats := { st.stats with dbErrors := st.stats.dbErrors + 1 } }
        | NovelUpsertOutcome.ok =>
            let st := { st with
              store := upsertNovel st.store startUrl d now,
              stats := { st.stats with
                novelsProcessed := st.stats.novelsProcessed + 1,
                dbNovelUpdateSuccess := st.stats.dbNovelUpdateSuccess + 1 } }
            let cursor := resumeCursor o.cursorQueryThrows st.store startUrl
            let st :=
              if cursor.snd then
                { st with stats := { st.stats with dbErrors := st.stats.dbErrors + 1 } }
              else st
            let startChapter := cursor.fst
            if latest < startChapter then st
            else
              chapterLoop startUrl (chaptersBase (d.chaptersUrl.getD "")) o.chapterOracle st
                (List.range' startChapter (latest + 1 - startChapter))

/-- The batch loop of `main`: process the input list of novel URLs in order,
each through `processNovel`. -/
def runBatch (inputs : List (String × NovelOracle)) (now : Nat) (st : RunState) : RunState :=
  inputs.foldl (fun st p => processNovel p.fst p.snd now st) st

/-- Sum of a list of counter records. -/
def sumStats (l : List Stats) : Stats :=
  l.foldl Stats.add Stats.zero

/-- Whether the chapter upsert resolved with a document. -/
def upsertOk : ChapterUpsertOutcome → Bool
  | ChapterUpsertOutcome.ok => true
  | _ => false

/-- The store effect of one chapter iteration, as a function of the oracle:
nothing on empty content or a rejected upsert; the chapter upsert alone when
the reference add is skipped or rejected; upsert followed by reference add on
full success. -/
def stepStore (novelUrl base : String) (o : ChapterOracle) (i : Nat) (s : Store) : Store :=
  match extractedContent o.fetch with
  | none => s
  | some c =>
      if c = "" then s
      else
        let cd := scrapeChapterContent o.fetch (base ++ "/chapter-" ++ toString i) i
        match o.upsert with
        | ChapterUpsertOutcome.threw => s
        | ChapterUpsertOutcome.okNone =>
            upsertChapter s novelUrl i { url := cd.url, title := cd.title, content := c }
        | ChapterUpsertOutcome.ok =>
            let s' := upsertChapter s novelUrl i { url := cd.url, title := cd.title, content := c }
            match o.addRef with
            | RefAddOutcome.ok => addChapterReference s' novelUrl i
            | RefAddOutcome.threw => s'

/-- The statistics contribution of one chapter iteration. -/
def stepDelta (o : ChapterOracle) : Stats :=
  let t := truthy (extractedContent o.fetch)
  { chaptersAttempted := 1,
    chaptersScrapedSuccess := if t then 1 else 0,
    chaptersWithEmptyContent := if t then 0 else 1,
    chaptersScrapedError := if o.lateThrow then 1 else 0,
    dbChapterUpdateSuccess := if t && upsertOk o.upsert then 1 else 0,
    dbErrors :=
      if t then
        match o.upsert with
        | ChapterUpsertOutcome.threw => 1
        | ChapterUpsertOutcome.okNone => 1
        | ChapterUpsertOutcome.ok =>
            match o.addRef with
            | RefAddOutcome.threw => 1
            | RefAddOutcome.ok => 0
      else 0 }

/-- The store after folding the per-chapter store effects over a list of
chapter numbers. -/
def loopStore (novelUrl base : String) (ora : Nat → ChapterOracle) (s : Store) (l : List Nat) :
    Store :=
  l.foldl (fun s' i => stepStore novelUrl base (ora i) i s') s

/-- Translate a run state by a statistics delta and trace prefixes, leaving
the store untouched. -/
def shiftState (d : Stats) (pf pu pr : List (String × Nat)) (st : RunState) : RunState :=
  { store := st.store, stats := Stats.add d st.stats,
    fetched := pf ++ st.fetched, upsertCalls := pu ++ st.upsertCalls,
    refCalls := pr ++ st.refCalls }

/-- Every chapter reference held by a persisted novel document points at an
existing chapter document. -/
def StoreInv (s : Store) : Prop :=
  ∀ url r, alookup url s.novels = some r →
    ∀ n ∈ r.chapters, (alookup (url, n) s.chapterDocs).isSome = true

/-- A chapter iteration on which everything succeeds: a fetched page with
truthy extracted content, a successful document upsert, a successful
reference add, and no stray exception. -/
def goodChapter (o : ChapterOracle) : Prop :=
  truthy (extractedContent o.fetch) = true ∧
    o.upsert = ChapterUpsertOutcome.ok ∧
    o.addRef = RefAddOutcome.ok ∧
    o.lateThrow = false

/-- A chapter iteration whose HTTP fetch throws (and nothing else goes
wrong). -/
def fetchFailed (o : ChapterOracle) : Prop :=
  o.fetch = FetchOutcome.err ∧ o.lateThrow = false

/-- Details of a witness novel whose declared chapter count is the given
string. -/
def mkDetails (count : Option String) : NovelDetails :=
  { title := some "Shadow Slave", author := some "Guiltythree", rank := some "1",
    chapters := count, views := some "9M", bookmarks := some "60K",
    status := some "Ongoing", genres := ["Fantasy"], summary := some "s",
    chaptersUrl := some "https://novelfire.net/book/shadow-slave/chapters",
    imageUrl := none }

/-- A witness novel URL. -/
def wUrl : String := "https://novelfire.net/book/shadow-slave"

/-- A chapter oracle on which everything succeeds. -/
def goodChapterOracle : ChapterOracle :=
  { fetch := FetchOutcome.page "Nightmare" (some "<p>body</p>"),
    upsert := ChapterUpsertOutcome.ok, addRef := RefAddOutcome.ok, lateThrow := false }

/-- A chapter oracle whose fetch throws. -/
def errChapterOracle : ChapterOracle :=
  { fetch := FetchOutcome.err,
    upsert := ChapterUpsertOutcome.ok, addRef := RefAddOutcome.ok, lateThrow := false }

/-- A persisted chapter document for the witness novel. -/
def wChapterDoc (n : Nat) : (String × Nat) × ChapterFields :=
  ((wUrl, n), { url := "", title := "t", content := "c" })

/-- A store holding persisted chapters `1 .. n` of the witness novel. -/
def wStore (n : Nat) : Store :=
  { novels := [], chapterDocs := (List.range' 1 n).map wChapterDoc }

/-- A novel oracle for the witness novel: declared count string, cursor-query
behaviour, and a uniform per-chapter oracle. -/
def mkNovelOracle (count : Option String) (queryThrows : Bool) (c : ChapterOracle) :
    NovelOracle :=
  { details := mkDetails count, novelUpsert := NovelUpsertOutcome.ok,
    cursorQueryThrows := queryThrows, chapterOracle := fun _ => c }

/-- Failed metadata scrape: `scrapeNovelDetails` catches its own error and
returns the all-null details object. -/
def failedDetails : NovelDetails :=
  { title := none, author := none, rank := none, chapters := none, views := none,
    bookmarks := none, status := none, genres := [], summary := none,
    chaptersUrl := none, imageUrl := none }

/-- A novel oracle whose metadata fetch failed. -/
def failedNovelOracle : NovelOracle :=
  { details := failedDetails, novelUpsert := NovelUpsertOutcome.ok,
    cursorQueryThrows := false, chapterOracle := fun _ => goodChapterOracle }

/-- A novel oracle with sound metadata whose novel-document upsert throws;
the exception is re-thrown (src/scraper.ts line 545) and reaches the per-URL
catch of the batch loop (lines 682-687). -/
def throwingUpsertOracle : NovelOracle :=
  { details := mkDetails (some "1"), novelUpsert := NovelUpsertOutcome.threw,
    cursorQueryThrows := false, chapterOracle := fun _ => goodChapterOracle }

/-- The statistics contribution of a novel that fails before its chapter loop
can run: one `novelsSkippedOrFailed` for a metadata failure or an
unresolvable chapter count (where processing stops before any database
operation), and additionally one `dbErrors` when it is the novel upsert that
throws (counted at src/scraper.ts line 540 before the exception reaches the
per-URL catch, which counts the novel skipped). -/
def novelFailureDelta (b : NovelOracle) : Stats :=
  if !truthy b.details.title || !truthy b.details.chaptersUrl then
    { novelsSkippedOrFailed := 1 }
  else
    match resolveTarget b.details.chapters with
    | none => { novelsSkippedOrFailed := 1 }
    | some _ => { dbErrors := 1, novelsSkippedOrFailed := 1 }

/-- Per-chapter oracle for the C2 scenario: the fetch of chapter 2 throws,
every other chapter succeeds fully. -/
def c2ChapterOracle (j : Nat) : ChapterOracle :=
  if j = 2 then errChapterOracle else goodChapterOracle

/-- Novel oracle for the C2 scenario: declared total 3, chapter 2's fetch
throws. -/
def c2Oracle : NovelOracle :=
  { details := mkDetails (some "3"), novelUpsert := NovelUpsertOutcome.ok,
    cursorQueryThrows := false, chapterOracle := c2ChapterOracle }

/-- Per-chapter oracle for the C3 scenario: the single chapter scrapes fine
but its database upsert throws. -/
def c3ChapterOracle : ChapterOracle :=
  { fetch := FetchOutcome.page "T" (some "<p>x</p>"),
    upsert := ChapterUpsertOutcome.threw, addRef := RefAddOutcome.ok, lateThrow := false }

/-- Novel oracle for the C3 scenario. -/
def c3Oracle : NovelOracle :=
  { details := mkDetails (some "1"), novelUpsert := NovelUpsertOutcome.ok,
    cursorQueryThrows := false, chapterOracle := fun _ => c3ChapterOracle }

/-! ## Lemmas and the claim theorems -/

theorem resumeCursor_noThrow (s : Store) (startUrl : String) :
    resumeCursor false s startUrl =
      ((getHighestChapterNumber s startUrl).getD 0 + 1, false) := by
  rcases hg : getHighestChapterNumber s startUrl with _ | k <;>
    simp only [resumeCursor, hg, Bool.false_eq_true, if_false, Option.getD_none,
      Option.getD_some]
  by_cases hk : 0 < k
  · rw [if_pos hk]
  · rw [if_neg hk]
    have : k = 0 := by omega
    subst this
    rfl

theorem alookup_aset_self {α β : Type} [DecidableEq α] (k : α) (v : β) (l : List (α × β)) :
    alookup k (aset k v l) = some v := by
  induction l with
  | nil => simp [aset, alookup]
  | cons hd tl ih =>
      by_cases h : hd.fst = k
      · simp [aset, alookup, h]
      · rcases hd with ⟨a, b⟩
        simp only at h
        simp [aset, alookup, h, ih]

theorem alookup_aset_ne {α β : Type} [DecidableEq α] (k k' : α) (v : β) (l : List (α × β))
    (h : k' ≠ k) : alookup k' (aset k v l) = alookup k' l := by
  induction l with
  | nil => simp [aset, alookup, Ne.symm h]
  | cons hd tl ih =>
      rcases hd with ⟨a, b⟩
      by_cases ha : a = k
      · subst ha
        simp [aset, alookup, Ne.symm h]
      · simp only [aset, ha, if_false]
        by_cases ha' : a = k'
        · simp [alookup, ha']
        · simp [alookup, ha', ih]

theorem alookup_aset_isSome {α β : Type} [DecidableEq α] (k k' : α) (v : β) (l : List (α × β))
    (h : (alookup k' l).isSome = true) : (alookup k' (aset k v l)).isSome = true := by
  by_cases hk : k' = k
  · subst hk; simp [alookup_aset_self]
  · rw [alookup_aset_ne k k' v l hk]; exact h

theorem Stats.add_zero' (a : Stats) : Stats.add a Stats.zero = a := by
  simp [Stats.add, Stats.zero]

theorem Stats.zero_add' (a : Stats) : Stats.add Stats.zero a = a := by
  simp [Stats.add, Stats.zero]

theorem Stats.add_assoc' (a b c : Stats) :
    Stats.add (Stats.add a b) c = Stats.add a (Stats.add b c) := by
  simp [Stats.add, Nat.add_assoc]

theorem foldl_statsAdd (a : Stats) (l : List Stats) :
    l.foldl Stats.add a = Stats.add a (sumStats l) := by
  induction l generalizing a with
  | nil => simp [sumStats, List.foldl, Stats.add_zero']
  | cons x xs ih =>
      simp only [sumStats, List.foldl]
      rw [ih, ih (Stats.add Stats.zero x)]
      simp [Stats.zero_add', Stats.add_assoc']

theorem sumStats_cons (x : Stats) (l : List Stats) :
    sumStats (x :: l) = Stats.add x (sumStats l) := by
  simp only [sumStats, List.foldl]
  rw [foldl_statsAdd, Stats.zero_add']
  rfl

theorem sumStats_proj (f : Stats → Nat) (hf : ∀ a b, f (Stats.add a b) = f a + f b)
    (hz : f Stats.zero = 0) : ∀ l : List Stats, f (sumStats l) = (l.map f).sum := by
  intro l
  induction l with
  | nil => simpa [sumStats] using hz
  | cons x xs ih => rw [sumStats_cons, hf, ih]; simp

theorem chapterStep_eq (novelUrl base : String) (ora : Nat → ChapterOracle)
    (st : RunState) (i : Nat) :
    chapterStep novelUrl base ora st i =
      { store := stepStore novelUrl base (ora i) i st.store,
        stats := Stats.add st.stats (stepDelta (ora i)),
        fetched := st.fetched ++ [(novelUrl, i)],
        upsertCalls := st.upsertCalls ++
          (if truthy (extractedContent (ora i).fetch) then [(novelUrl, i)] else []),
        refCalls := st.refCalls ++
          (if truthy (extractedContent (ora i).fetch) && upsertOk (ora i).upsert then
            [(novelUrl, i)] else []) } := by
  rcases st with ⟨store, stats, f, u, r⟩
  rcases ho : ora i with ⟨fetch, upsert, addRef, late⟩
  rcases fetch with _ | ⟨t, raw⟩
  · cases upsert <;> cases addRef <;> cases late <;>
      simp [chapterStep, stepStore, stepDelta, extractedContent, scrapeChapterContent, ho,
        Stats.add, upsertOk, truthy]
  · rcases raw with _ | h
    · cases upsert <;> cases addRef <;> cases late <;>
        simp [chapterStep, stepStore, stepDelta, extractedContent, scrapeChapterContent, ho,
          Stats.add, upsertOk, truthy]
    · by_cases hh : h = ""
      · cases upsert <;> cases addRef <;> cases late <;>
          simp [chapterStep, stepStore, stepDelta, extractedContent, scrapeChapterContent, ho,
            Stats.add, upsertOk, truthy, hh]
      · by_cases htr : jsTrim h = ""
        · cases upsert <;> cases addRef <;> cases late <;>
            simp [chapterStep, stepStore, stepDelta, extractedContent, scrapeChapterContent, ho,
              Stats.add, upsertOk, truthy, hh, htr]
        · cases upsert <;> cases addRef <;> cases late <;>
            simp [chapterStep, stepStore, stepDelta, extractedContent, scrapeChapterContent, ho,
              Stats.add, upsertOk, truthy, hh, htr]

theorem chapterLoop_eq (novelUrl base : String) (ora : Nat → ChapterOracle)
    (st : RunState) (l : List Nat) :
    chapterLoop novelUrl base ora st l =
      { store := loopStore novelUrl base ora st.store l,
        stats := Stats.add st.stats (sumStats (l.map (fun i => stepDelta (ora i)))),
        fetched := st.fetched ++ l.map (fun i => (novelUrl, i)),
        upsertCalls := st.upsertCalls ++
          (l.filter (fun i => truthy (extractedContent (ora i).fetch))).map
            (fun i => (novelUrl, i)),
        refCalls := st.refCalls ++
          (l.filter (fun i =>
              truthy (extractedContent (ora i).fetch) && upsertOk (ora i).upsert)).map
            (fun i => (novelUrl, i)) } := by
  induction l generalizing st with
  | nil =>
      simp [chapterLoop, loopStore, sumStats, Stats.add_zero']
  | cons a tl ih =>
      have hstep := chapterStep_eq novelUrl base ora st a
      simp only [chapterLoop, List.foldl] at ih ⊢
      rw [hstep, ih]
      refine RunState.mk.injEq .. ▸ ?_
      refine ⟨rfl, ?_, ?_, ?_, ?_⟩
      · simp [sumStats_cons, Stats.add_assoc']
      · simp
      · by_cases hp : truthy (extractedContent (ora a).fetch) <;>
          simp [List.filter, hp]
      · by_cases hp : truthy (extractedContent (ora a).fetch) && upsertOk (ora a).upsert <;>
          simp [List.filter, hp]

theorem Stats.add_comm' (a b : Stats) : Stats.add a b = Stats.add b a := by
  simp [Stats.add, Nat.add_comm]

theorem chapterLoop_shift (novelUrl base : String) (ora : Nat → ChapterOracle)
    (d : Stats) (pf pu pr : List (String × Nat)) (st : RunState) (l : List Nat) :
    chapterLoop novelUrl base ora (shiftState d pf pu pr st) l =
      shiftState d pf pu pr (chapterLoop novelUrl base ora st l) := by
  rw [chapterLoop_eq, chapterLoop_eq]
  simp [shiftState, Stats.add, Nat.add_assoc, Nat.add_comm, Nat.add_left_comm,
    List.append_assoc]

theorem processNovel_shift (startUrl : String) (o : NovelOracle) (now : Nat)
    (d : Stats) (pf pu pr : List (String × Nat)) (st : RunState) :
    processNovel startUrl o now (shiftState d pf pu pr st) =
      shiftState d pf pu pr (processNovel startUrl o now st) := by
  rcases st with ⟨store, stats, f, u, r⟩
  simp only [processNovel, shiftState]
  repeat' split
  all_goals
    simp [chapterLoop_eq, loopStore, Stats.add, Nat.add_assoc, Nat.add_comm,
      Nat.add_left_comm, List.append_assoc]

theorem runBatch_append (xs ys : List (String × NovelOracle)) (now : Nat) (st : RunState) :
    runBatch (xs ++ ys) now st = runBatch ys now (runBatch xs now st) := by
  simp [runBatch, List.foldl_append]

theorem runBatch_shift (inputs : List (String × NovelOracle)) (now : Nat)
    (d : Stats) (pf pu pr : List (String × Nat)) (st : RunState) :
    runBatch inputs now (shiftState d pf pu pr st) =
      shiftState d pf pu pr (runBatch inputs now st) := by
  induction inputs generalizing st with
  | nil => simp [runBatch]
  | cons p ps ih =>
      simp only [runBatch, List.foldl] at ih ⊢
      rw [processNovel_shift, ih]

theorem sum_map_eq_length (l : List Nat) (g : Nat → Nat) (h : ∀ j ∈ l, g j = 1) :
    (l.map g).sum = l.length := by
  induction l with
  | nil => simp
  | cons a tl ih =>
      have ha := h a (by simp)
      have htl := ih (fun j hj => h j (by simp [hj]))
      simp [ha, htl, Nat.add_comm]

theorem sum_map_zero (l : List Nat) (g : Nat → Nat) (h : ∀ j ∈ l, g j = 0) :
    (l.map g).sum = 0 := by
  induction l with
  | nil => simp
  | cons a tl ih => simp [h a (by simp), ih (fun j hj => h j (by simp [hj]))]

theorem sum_map_single (l : List Nat) (g : Nat → Nat) (i c : Nat)
    (hl : l.Nodup) (hi : i ∈ l) (hgi : g i = c) (h : ∀ j ∈ l, j ≠ i → g j = 0) :
    (l.map g).sum = c := by
  induction l with
  | nil => cases hi
  | cons a tl ih =>
      rcases List.mem_cons.mp hi with rfl | hmem
      · have hz : (tl.map g).sum = 0 :=
          sum_map_zero tl g (fun j hj =>
            h j (List.mem_cons_of_mem _ hj)
              (by rintro rfl; exact (List.nodup_cons.mp hl).1 hj))
        simp [hgi, hz]
      · have ha : g a = 0 :=
          h a (by simp) (by rintro rfl; exact (List.nodup_cons.mp hl).1 hmem)
        have htl := ih (List.nodup_cons.mp hl).2 hmem
          (fun j hj hji => h j (List.mem_cons_of_mem _ hj) hji)
        simp [ha, htl]

theorem sum_map_all_but_one (l : List Nat) (g : Nat → Nat) (i : Nat)
    (hl : l.Nodup) (hi : i ∈ l) (hgi : g i = 0) (h : ∀ j ∈ l, j ≠ i → g j = 1) :
    (l.map g).sum = l.length - 1 := by
  induction l with
  | nil => cases hi
  | cons a tl ih =>
      rcases List.mem_cons.mp hi with rfl | hmem
      · have hone : (tl.map g).sum = tl.length :=
          sum_map_eq_length tl g (fun j hj => h j (List.mem_cons_of_mem _ hj)
            (by rintro rfl; exact (List.nodup_cons.mp hl).1 hj))
        simp [hgi, hone]
      · have ha : g a = 1 :=
          h a (by simp) (by rintro rfl; exact (List.nodup_cons.mp hl).1 hmem)
        have htl := ih (List.nodup_cons.mp hl).2 hmem
          (fun j hj hji => h j (List.mem_cons_of_mem _ hj) hji)
        have hlen : 1 ≤ tl.length := List.length_pos.mpr (by rintro rfl; cases hmem)
        simp only [List.map, List.sum_cons, ha, htl, List.length_cons]
        omega

theorem addChapterReference_chapterDocs (s : Store) (novelUrl : String) (n : Nat) :
    (addChapterReference s novelUrl n).chapterDocs = s.chapterDocs := by
  unfold addChapterReference
  rcases alookup novelUrl s.novels with _ | r <;> simp

theorem getHighest_upsertNovel (s : Store) (url' : String) (d : NovelDetails) (now : Nat)
    (url : String) :
    getHighestChapterNumber (upsertNovel s url' d now) url = getHighestChapterNumber s url :=
  rfl

theorem stepStore_docs_mono (novelUrl base : String) (o : ChapterOracle) (i : Nat) (s : Store)
    (k : String × Nat) (h : (alookup k s.chapterDocs).isSome = true) :
    (alookup k (stepStore novelUrl base o i s).chapterDocs).isSome = true := by
  unfold stepStore
  rcases he : extractedContent o.fetch with _ | c <;> simp only [he]
  · exact h
  · by_cases hc : c = ""
    · rw [if_pos hc]; exact h
    · rw [if_neg hc]
      rcases o.upsert with _ | _ | _
      · rcases o.addRef with _ | _
        · rw [addChapterReference_chapterDocs]
          exact alookup_aset_isSome _ _ _ _ h
        · exact alookup_aset_isSome _ _ _ _ h
      · exact alookup_aset_isSome _ _ _ _ h
      · exact h

theorem stepStore_docs_self (novelUrl base : String) (o : ChapterOracle) (i : Nat) (s : Store)
    (ht : truthy (extractedContent o.fetch) = true)
    (hu : o.upsert ≠ ChapterUpsertOutcome.threw) :
    (alookup (novelUrl, i) (stepStore novelUrl base o i s).chapterDocs).isSome = true := by
  unfold stepStore
  rcases he : extractedContent o.fetch with _ | c <;> simp only [he]
  · rw [he] at ht; simp [truthy] at ht
  · rw [he] at ht
    simp only [truthy, ne_eq, decide_eq_true_eq] at ht
    rw [if_neg ht]
    rcases hup : o.upsert with _ | _ | _
    · rcases o.addRef with _ | _
      · rw [addChapterReference_chapterDocs]
        simp [upsertChapter, alookup_aset_self]
      · simp [upsertChapter, alookup_aset_self]
    · simp [upsertChapter, alookup_aset_self]
    · exact absurd hup hu

theorem loopStore_docs_mono (novelUrl base : String) (ora : Nat → ChapterOracle)
    (l : List Nat) (s : Store) (k : String × Nat)
    (h : (alookup k s.chapterDocs).isSome = true) :
    (alookup k (loopStore novelUrl base ora s l).chapterDocs).isSome = true := by
  induction l generalizing s with
  | nil => exact h
  | cons a tl ih =>
      exact ih _ (stepStore_docs_mono novelUrl base (ora a) a s k h)

theorem loopStore_docs_present (novelUrl base : String) (ora : Nat → ChapterOracle)
    (l : List Nat) (j : Nat) (s : Store) (hj : j ∈ l)
    (ht : truthy (extractedContent (ora j).fetch) = true)
    (hu : (ora j).upsert ≠ ChapterUpsertOutcome.threw) :
    (alookup (novelUrl, j) (loopStore novelUrl base ora s l).chapterDocs).isSome = true := by
  induction l generalizing s with
  | nil => cases hj
  | cons a tl ih =>
      rcases List.mem_cons.mp hj with rfl | hmem
      · exact loopStore_docs_mono novelUrl base ora tl _ _
          (stepStore_docs_self novelUrl base (ora j) j s ht hu)
      · exact ih _ hmem

theorem storeInv_empty : StoreInv emptyStore := by
  intro url r h
  simp [emptyStore, alookup] at h

theorem storeInv_upsertChapter (s : Store) (url : String) (i : Nat) (f : ChapterFields)
    (h : StoreInv s) : StoreInv (upsertChapter s url i f) := by
  intro u r hr n hn
  exact alookup_aset_isSome _ _ _ _ (h u r hr n hn)

theorem storeInv_addChapterReference (s : Store) (url : String) (i : Nat)
    (h : StoreInv s) (hd : (alookup (url, i) s.chapterDocs).isSome = true) :
    StoreInv (addChapterReference s url i) := by
  unfold addChapterReference
  rcases hnov : alookup url s.novels with _ | r <;> simp only [hnov]
  · exact h
  · intro u r'' hr'' n hn
    by_cases hu : u = url
    · subst hu
      rw [alookup_aset_self] at hr''
      injection hr'' with hr''
      subst hr''
      simp only at hn
      by_cases hi : i ∈ r.chapters
      · rw [if_pos hi] at hn
        exact h u r hnov n hn
      · rw [if_neg hi] at hn
        rcases List.mem_append.mp hn with hn' | hn'
        · exact h u r hnov n hn'
        · have : n = i := by simpa using hn'
          subst this
          exact hd
    · rw [alookup_aset_ne _ _ _ _ hu] at hr''
      exact h u r'' hr'' n hn

theorem storeInv_upsertNovel (s : Store) (url : String) (d : NovelDetails) (now : Nat)
    (h : StoreInv s) : StoreInv (upsertNovel s url d now) := by
  intro u r hr n hn
  unfold upsertNovel at hr
  by_cases hu : u = url
  · subst hu
    simp only [alookup_aset_self] at hr
    injection hr with hr
    subst hr
    simp only [applyNovelSet] at hn
    rcases hold : alookup u s.novels with _ | old
    · rw [hold] at hn
      simp [freshNovel] at hn
    · rw [hold] at hn
      exact h u old hold n hn
  · rw [alookup_aset_ne _ _ _ _ hu] at hr
    exact h u r hr n hn

theorem storeInv_stepStore (novelUrl base : String) (o : ChapterOracle) (i : Nat) (s : Store)
    (h : StoreInv s) : StoreInv (stepStore novelUrl base o i s) := by
  unfold stepStore
  rcases he : extractedContent o.fetch with _ | c <;> simp only [he]
  · exact h
  · by_cases hc : c = ""
    · rw [if_pos hc]; exact h
    · rw [if_neg hc]
      rcases o.upsert with _ | _ | _
      · rcases o.addRef with _ | _
        · exact storeInv_addChapterReference _ _ _
            (storeInv_upsertChapter _ _ _ _ h)
            (by simp [upsertChapter, alookup_aset_self])
        · exact storeInv_upsertChapter _ _ _ _ h
      · exact storeInv_upsertChapter _ _ _ _ h
      · exact h

theorem storeInv_loopStore (novelUrl base : String) (ora : Nat → ChapterOracle)
    (l : List Nat) (s : Store) (h : StoreInv s) :
    StoreInv (loopStore novelUrl base ora s l) := by
  induction l generalizing s with
  | nil => exact h
  | cons a tl ih => exact ih _ (storeInv_stepStore novelUrl base (ora a) a s h)

theorem resolveTarget_pos (c : Option String) (N : Nat) (h : resolveTarget c = some N) :
    1 ≤ N := by
  rcases c with _ | s
  · simp [resolveTarget] at h
  · rcases hp : parseIntJs (stripCommas s) with _ | k
    · simp [resolveTarget, hp] at h
    · simp only [resolveTarget, hp] at h
      by_cases hk : 0 < k
      · rw [if_pos hk] at h
        injection h with h'
        omega
      · rw [if_neg hk] at h; cases h

/-- When the essential details are present, the chapter target resolves, the
novel upsert succeeds, the resume-cursor query succeeds and there is work left
(highest persisted chapter `K`, target `latest`, `K < latest`), `processNovel`
is the chapter loop over `K+1 .. latest` started from the post-upsert state. -/
theorem processNovel_ok (startUrl : String) (o : NovelOracle) (now latest K : Nat)
    (st : RunState)
    (hT : truthy o.details.title = true) (hC : truthy o.details.chaptersUrl = true)
    (hN : resolveTarget o.details.chapters = some latest)
    (hU : o.novelUpsert = NovelUpsertOutcome.ok)
    (hQ : o.cursorQueryThrows = false)
    (hK : (getHighestChapterNumber st.store startUrl).getD 0 = K)
    (hKlatest : K < latest) :
    processNovel startUrl o now st =
      chapterLoop startUrl (chaptersBase (o.details.chaptersUrl.getD "")) o.chapterOracle
        { store := upsertNovel st.store startUrl o.details now,
          stats := { st.stats with
            novelsProcessed := st.stats.novelsProcessed + 1,
            dbNovelUpdateSuccess := st.stats.dbNovelUpdateSuccess + 1 },
          fetched := st.fetched, upsertCalls := st.upsertCalls, refCalls := st.refCalls }
        (List.range' (K + 1) (latest - K)) := by
  have hcur : resumeCursor false (upsertNovel st.store startUrl o.details now)
      startUrl = (K + 1, false) := by
    rw [resumeCursor_noThrow, getHighest_upsertNovel, hK]
  simp only [processNovel, hT, hC, hN, hU, hQ, Bool.not_true, Bool.or_self, Bool.false_eq_true,
    if_false, hcur]
  rw [if_neg (by omega)]
  have harith : latest + 1 - (K + 1) = latest - K := by omega
  rw [harith]

theorem stepDelta_attempted (o : ChapterOracle) : (stepDelta o).chaptersAttempted = 1 := rfl

theorem stepDelta_good (o : ChapterOracle) (h : goodChapter o) :
    stepDelta o =
      { chaptersAttempted := 1, chaptersScrapedSuccess := 1,
        dbChapterUpdateSuccess := 1 } := by
  rcases h with ⟨h1, h2, h3, h4⟩
  simp [stepDelta, h1, h2, h3, h4, upsertOk]

theorem stepDelta_fetchFailed (o : ChapterOracle) (h : fetchFailed o) :
    stepDelta o = { chaptersAttempted := 1, chaptersWithEmptyContent := 1 } := by
  rcases h with ⟨h1, h2⟩
  simp [stepDelta, h1, h2, extractedContent, scrapeChapterContent, truthy]

theorem stepStore_not_truthy (novelUrl base : String) (o : ChapterOracle) (i : Nat) (s : Store)
    (ht : truthy (extractedContent o.fetch) = false) :
    stepStore novelUrl base o i s = s := by
  unfold stepStore
  rcases he : extractedContent o.fetch with _ | c <;> simp only [he]
  rw [he] at ht
  simp only [truthy, ne_eq, decide_eq_true_eq, decide_eq_false_iff_not, not_not] at ht
  rw [if_pos ht]

/-- C1.  Resume correctness: when the highest persisted chapter for the novel
is `K` (`K = 0` when none are persisted — both cases summarized by
`(getHighestChapterNumber ..).getD 0 = K`), the declared count resolves to
`latest` with `K < latest`, and the metadata fetch, novel upsert and cursor
query succeed, one `processNovel` run issues exactly one chapter fetch for
each of `K+1 .. latest`, in that strictly increasing order, and no fetch for
any chapter `≤ K`. -/
theorem claim1_resume_fetches_exactly_remaining (startUrl : String) (o : NovelOracle)
    (now latest K : Nat) (st : RunState)
    (hT : truthy o.details.title = true) (hC : truthy o.details.chaptersUrl = true)
    (hN : resolveTarget o.details.chapters = some latest)
    (hU : o.novelUpsert = NovelUpsertOutcome.ok)
    (hQ : o.cursorQueryThrows = false)
    (hK : (getHighestChapterNumber st.store startUrl).getD 0 = K)
    (hKlatest : K < latest) :
    (processNovel startUrl o now st).fetched =
      st.fetched ++ (List.range' (K + 1) (latest - K)).map (fun n => (startUrl, n)) ∧
    List.Pairwise (· < ·) (List.range' (K + 1) (latest - K)) ∧
    (∀ j, j ∈ List.range' (K + 1) (latest - K) ↔ K + 1 ≤ j ∧ j ≤ latest) := by
  refine ⟨?_, List.pairwise_lt_range' _ _, ?_⟩
  · rw [processNovel_ok startUrl o now latest K st hT hC hN hU hQ hK hKlatest,
      chapterLoop_eq]
  · intro j
    rw [List.mem_range'_1]
    omega

set_option maxRecDepth 16000 in
/-- Witness for C1, at the claim's own instance: chapters 1..50 persisted,
declared total 80; the run fetches exactly chapters 51..80. -/
theorem claim1_witness :
    (processNovel wUrl (mkNovelOracle (some "80") false goodChapterOracle) 0
        (RunState.init (wStore 50))).fetched =
      (RunState.init (wStore 50)).fetched ++
        (List.range' (50 + 1) (80 - 50)).map (fun n => (wUrl, n)) :=
  (claim1_resume_fetches_exactly_remaining wUrl
    (mkNovelOracle (some "80") false goodChapterOracle) 0 80 50
    (RunState.init (wStore 50))
    (by decide) (by decide) (by decide) rfl rfl (by decide) (by decide)).1

/-- C4.  Already-complete skip: when the resume cursor (highest persisted
chapter + 1) exceeds the resolved target, the chapter loop is skipped
entirely — the run state changes only by the novel upsert and the
processed/novel-update counters; no chapter is attempted, fetched or
persisted. -/
theorem claim4_already_complete_skips_loop (startUrl : String) (o : NovelOracle)
    (now latest : Nat) (st : RunState)
    (hT : truthy o.details.title = true) (hC : truthy o.details.chaptersUrl = true)
    (hN : resolveTarget o.details.chapters = some latest)
    (hU : o.novelUpsert = NovelUpsertOutcome.ok)
    (hQ : o.cursorQueryThrows = false)
    (hK : latest ≤ (getHighestChapterNumber st.store startUrl).getD 0) :
    processNovel startUrl o now st =
      { st with
        store := upsertNovel st.store startUrl o.details now,
        stats := { st.stats with
          novelsProcessed := st.stats.novelsProcessed + 1,
          dbNovelUpdateSuccess := st.stats.dbNovelUpdateSuccess + 1 } } := by
  have hcur : resumeCursor false (upsertNovel st.store startUrl o.details now) startUrl =
      ((getHighestChapterNumber st.store startUrl).getD 0 + 1, false) := by
    rw [resumeCursor_noThrow, getHighest_upsertNovel]
  simp only [processNovel, hT, hC, hN, hU, hQ, Bool.not_true, Bool.or_self,
    Bool.false_eq_true, if_false, hcur]
  rw [if_pos (by omega)]

/-- Witness for C4: chapters 1..3 persisted, declared total 2; the loop is
skipped and nothing beyond the metadata upsert happens. -/
theorem claim4_witness :
    processNovel wUrl (mkNovelOracle (some "2") false goodChapterOracle) 0
        (RunState.init (wStore 3)) =
      { RunState.init (wStore 3) with
        store := upsertNovel (wStore 3) wUrl (mkDetails (some "2")) 0,
        stats := { (RunState.init (wStore 3)).stats with
          novelsProcessed := (RunState.init (wStore 3)).stats.novelsProcessed + 1,
          dbNovelUpdateSuccess :=
            (RunState.init (wStore 3)).stats.dbNovelUpdateSuccess + 1 } } :=
  claim4_already_complete_skips_loop wUrl (mkNovelOracle (some "2") false goodChapterOracle)
    0 2 (RunState.init (wStore 3)) (by decide) (by decide) (by decide) rfl rfl (by decide)

/-- C6.  Frame property of the novel upsert: every metadata field —
title, author, rank, declared total, views, bookmarks, status, genres,
summary, chapters URL, image URL, last-scraped time — is overwritten
last-write-wins from the scraped details, while the chapter-reference
collection keeps whatever value it had (empty on first creation), for every
prior state; documents of other novels and the chapter collection are
untouched. -/
theorem claim6_upsertNovel_frame (s : Store) (url : String) (d : NovelDetails) (now : Nat) :
    alookup url (upsertNovel s url d now).novels =
      some { title := d.title, author := d.author, rank := d.rank,
             totalChapters := d.chapters, views := d.views, bookmarks := d.bookmarks,
             status := d.status, genres := d.genres, summary := d.summary,
             chaptersUrl := d.chaptersUrl, imageUrl := d.imageUrl, lastScraped := now,
             chapters :=
               match alookup url s.novels with
               | some old => old.chapters
               | none => [] } ∧
    (upsertNovel s url d now).chapterDocs = s.chapterDocs ∧
    (∀ url', url' ≠ url →
      alookup url' (upsertNovel s url d now).novels = alookup url' s.novels) := by
  refine ⟨?_, rfl, ?_⟩
  · unfold upsertNovel applyNovelSet
    rw [alookup_aset_self]
    rcases h : alookup url s.novels with _ | old <;> simp [h, freshNovel]
  · intro url' hne
    unfold upsertNovel
    exact alookup_aset_ne _ _ _ _ hne

/-- C7.  Target resolution: with essential details present but a declared
chapter count that is absent, unparseable or non-positive
(`resolveTarget = none` captures exactly those three cases), the novel is
counted skipped/failed and nothing else changes — no store write, no fetch,
no chapter attempt; the batch then continues with the remaining novels. -/
theorem claim7_unresolvable_target_skips (startUrl : String) (o : NovelOracle) (now : Nat)
    (st : RunState) (rest : List (String × NovelOracle))
    (hT : truthy o.details.title = true) (hC : truthy o.details.chaptersUrl = true)
    (hN : resolveTarget o.details.chapters = none) :
    processNovel startUrl o now st =
      { st with stats := { st.stats with
          novelsSkippedOrFailed := st.stats.novelsSkippedOrFailed + 1 } } ∧
    runBatch ((startUrl, o) :: rest) now st =
      runBatch rest now (processNovel startUrl o now st) := by
  constructor
  · simp [processNovel, hT, hC, hN]
  · rfl

/-- Witness for C7: a declared count of `"N/A"` parses to nothing; the novel
is skipped with no other effect. -/
theorem claim7_witness :
    processNovel wUrl (mkNovelOracle (some "N/A") false goodChapterOracle) 0
        (RunState.init (wStore 0)) =
      { RunState.init (wStore 0) with
        stats := { (RunState.init (wStore 0)).stats with
          novelsSkippedOrFailed :=
            (RunState.init (wStore 0)).stats.novelsSkippedOrFailed + 1 } } :=
  (claim7_unresolvable_target_skips wUrl (mkNovelOracle (some "N/A") false goodChapterOracle)
    0 (RunState.init (wStore 0)) [] (by decide) (by decide) (by decide)).1

/-- C9.  Empty-content handling: when the fetched page yields an empty or
missing extracted body, the iteration leaves the store untouched (no chapter
record created or overwritten, no upsert or reference call), and counts the
chapter under `chaptersWithEmptyContent`, leaving `chaptersScrapedError` —
a distinct counter — unchanged. -/
theorem claim9_empty_content_not_persisted (novelUrl base : String)
    (ora : Nat → ChapterOracle) (st : RunState) (i : Nat) (t : String) (raw : Option String)
    (hf : (ora i).fetch = FetchOutcome.page t raw)
    (hc : truthy (extractedContent (FetchOutcome.page t raw)) = false)
    (hl : (ora i).lateThrow = false) :
    chapterStep novelUrl base ora st i =
      { st with
        stats := { st.stats with
          chaptersAttempted := st.stats.chaptersAttempted + 1,
          chaptersWithEmptyContent := st.stats.chaptersWithEmptyContent + 1 },
        fetched := st.fetched ++ [(novelUrl, i)] } := by
  have ht : truthy (extractedContent (ora i).fetch) = false := by rw [hf]; exact hc
  rw [chapterStep_eq, stepStore_not_truthy _ _ _ _ _ ht]
  simp [stepDelta, ht, hl, Stats.add]

/-- Witness for C9: the `#content` selector matches an empty element. -/
theorem claim9_witness :
    chapterStep wUrl "b" (fun _ =>
        { fetch := FetchOutcome.page "T" (some ""), upsert := ChapterUpsertOutcome.ok,
          addRef := RefAddOutcome.ok, lateThrow := false })
      (RunState.init (wStore 0)) 1 =
      { RunState.init (wStore 0) with
        stats := { (RunState.init (wStore 0)).stats with
          chaptersAttempted := (RunState.init (wStore 0)).stats.chaptersAttempted + 1,
          chaptersWithEmptyContent :=
            (RunState.init (wStore 0)).stats.chaptersWithEmptyContent + 1 },
        fetched := (RunState.init (wStore 0)).fetched ++ [(wUrl, 1)] } :=
  claim9_empty_content_not_persisted wUrl "b" (fun _ =>
      { fetch := FetchOutcome.page "T" (some ""), upsert := ChapterUpsertOutcome.ok,
        addRef := RefAddOutcome.ok, lateThrow := false })
    (RunState.init (wStore 0)) 1 "T" (some "") rfl (by decide) rfl

/-- C10.  Resume-cursor query failure: when the highest-chapter query throws
(and everything else proceeds normally), the novel is not skipped — the
failure is recorded as a database error, the cursor falls back to chapter 1,
and the loop re-attempts every chapter `1 .. latest`, re-fetching chapters
that may already be persisted. -/
theorem claim10_cursor_query_failure_restarts (startUrl : String) (o : NovelOracle)
    (now latest : Nat) (st : RunState)
    (hT : truthy o.details.title = true) (hC : truthy o.details.chaptersUrl = true)
    (hN : resolveTarget o.details.chapters = some latest)
    (hU : o.novelUpsert = NovelUpsertOutcome.ok)
    (hQ : o.cursorQueryThrows = true) :
    processNovel startUrl o now st =
      chapterLoop startUrl (chaptersBase (o.details.chaptersUrl.getD "")) o.chapterOracle
        { store := upsertNovel st.store startUrl o.details now,
          stats := { st.stats with
            novelsProcessed := st.stats.novelsProcessed + 1,
            dbNovelUpdateSuccess := st.stats.dbNovelUpdateSuccess + 1,
            dbErrors := st.stats.dbErrors + 1 },
          fetched := st.fetched, upsertCalls := st.upsertCalls, refCalls := st.refCalls }
        (List.range' 1 latest) ∧
    (processNovel startUrl o now st).fetched =
      st.fetched ++ (List.range' 1 latest).map (fun n => (startUrl, n)) := by
  have hpos : 1 ≤ latest := resolveTarget_pos _ _ hN
  have h1 : processNovel startUrl o now st =
      chapterLoop startUrl (chaptersBase (o.details.chaptersUrl.getD "")) o.chapterOracle
        { store := upsertNovel st.store startUrl o.details now,
          stats := { st.stats with
            novelsProcessed := st.stats.novelsProcessed + 1,
            dbNovelUpdateSuccess := st.stats.dbNovelUpdateSuccess + 1,
            dbErrors := st.stats.dbErrors + 1 },
          fetched := st.fetched, upsertCalls := st.upsertCalls, refCalls := st.refCalls }
        (List.range' 1 latest) := by
    simp only [processNovel, hT, hC, hN, hU, hQ, Bool.not_true, Bool.or_self,
      Bool.false_eq_true, if_false, resumeCursor, eq_self_iff_true, if_true]
    rw [if_neg (by omega)]
    have harith : latest + 1 - 1 = latest := by omega
    rw [harith]
  refine ⟨h1, ?_⟩
  rw [h1, chapterLoop_eq]

/-- Witness for C10: chapters 1..2 persisted, declared total 3, failing
cursor query; the run re-fetches chapters 1, 2 and 3. -/
theorem claim10_witness :
    (processNovel wUrl (mkNovelOracle (some "3") true goodChapterOracle) 0
        (RunState.init (wStore 2))).fetched =
      (RunState.init (wStore 2)).fetched ++
        (List.range' 1 3).map (fun n => (wUrl, n)) :=
  (claim10_cursor_query_failure_restarts wUrl
    (mkNovelOracle (some "3") true goodChapterOracle) 0 3 (RunState.init (wStore 2))
    (by decide) (by decide) (by decide) rfl rfl).2

theorem storeInv_processNovel (startUrl : String) (o : NovelOracle) (now : Nat)
    (st : RunState) (h : StoreInv st.store) :
    StoreInv (processNovel startUrl o now st).store := by
  simp only [processNovel]
  repeat' split
  all_goals
    first
    | exact h
    | exact storeInv_upsertNovel _ _ _ _ h
    | (rw [chapterLoop_eq]
       exact storeInv_loopStore _ _ _ _ _ (storeInv_upsertNovel _ _ _ _ h))

/-- C5.  Reference only after existence: inside one iteration the chapter
upsert is applied before the reference add, and the reference add happens
only when the upsert returned a document (definition of `chapterStep` /
`stepStore`); consequently the invariant "every reference in a novel's
chapter collection points at an existing chapter document" is preserved from
any state satisfying it — after the chapter loop over ANY list of chapter
numbers (hence after every prefix, i.e. at every reachable loop state), after
the pre-loop novel upsert, and after a whole `processNovel` run.  The only
possible inconsistency remains an existing-but-unreferenced chapter. -/
theorem claim5_refs_only_after_persist (novelUrl base startUrl : String)
    (ora : Nat → ChapterOracle) (o : NovelOracle) (now : Nat) (st : RunState)
    (l : List Nat) (hInv : StoreInv st.store) :
    StoreInv (chapterLoop novelUrl base ora st l).store ∧
    StoreInv (upsertNovel st.store startUrl o.details now) ∧
    StoreInv (processNovel startUrl o now st).store := by
  refine ⟨?_, storeInv_upsertNovel _ _ _ _ hInv, storeInv_processNovel _ _ _ _ hInv⟩
  rw [chapterLoop_eq]
  exact storeInv_loopStore _ _ _ _ _ hInv

/-- Witness for C5: a full run over an empty store keeps the invariant. -/
theorem claim5_witness :
    StoreInv (processNovel wUrl (mkNovelOracle (some "2") false goodChapterOracle) 0
      (RunState.init emptyStore)).store :=
  (claim5_refs_only_after_persist wUrl "b" wUrl (fun _ => goodChapterOracle)
    (mkNovelOracle (some "2") false goodChapterOracle) 0 (RunState.init emptyStore)
    [1, 2] storeInv_empty).2.2

/-- C8.  Novel-level failure isolation: a novel whose metadata fetch fails
(missing title or chapters URL) — or whose processing raises an exception
that escapes to the batch-level per-URL catch (modeled: the novel upsert
throws and is re-thrown at src/scraper.ts line 545, caught at lines
682-687) — contributes exactly its one-novel failure delta: one
`novelsSkippedOrFailed`, plus the one `dbErrors` already counted before the
re-throw in the upsert case, and nothing else.  The final state of the batch
equals the final state of the batch with that novel removed, translated by
that delta — so the store contents, every trace entry, and every other
counter produced by the earlier and later novels are identical, and they are
processed in the same input-list order; the batch continues past the
failure. -/
theorem claim8_novel_failure_isolation (xs ys : List (String × NovelOracle))
    (burl : String) (b : NovelOracle) (now : Nat) (st : RunState)
    (hb : (truthy b.details.title = false ∨ truthy b.details.chaptersUrl = false) ∨
          b.novelUpsert = NovelUpsertOutcome.threw) :
    runBatch (xs ++ (burl, b) :: ys) now st =
      shiftState (novelFailureDelta b) [] [] [] (runBatch (xs ++ ys) now st) ∧
    (novelFailureDelta b).novelsSkippedOrFailed = 1 ∧
    (novelFailureDelta b = { novelsSkippedOrFailed := 1 } ∨
     novelFailureDelta b = { dbErrors := 1, novelsSkippedOrFailed := 1 }) := by
  have hshape : novelFailureDelta b = { novelsSkippedOrFailed := 1 } ∨
      novelFailureDelta b = { dbErrors := 1, novelsSkippedOrFailed := 1 } := by
    unfold novelFailureDelta
    by_cases hcond : (!truthy b.details.title || !truthy b.details.chaptersUrl) = true
    · left
      rw [if_pos hcond]
    · rw [if_neg hcond]
      rcases hrt : resolveTarget b.details.chapters with _ | latest <;> simp [hrt]
  have hskip : (novelFailureDelta b).novelsSkippedOrFailed = 1 := by
    rcases hshape with h | h <;> rw [h]
  have hfail : ∀ st', processNovel burl b now st' =
      shiftState (novelFailureDelta b) [] [] [] st' := by
    intro st'
    by_cases hcond : (!truthy b.details.title || !truthy b.details.chaptersUrl) = true
    · simp [processNovel, novelFailureDelta, hcond, shiftState, Stats.add, Nat.add_comm]
    · have hthrew : b.novelUpsert = NovelUpsertOutcome.threw := by
        rcases hb with hb | hb
        · exact absurd (by rcases hb with h | h <;> simp [h]) hcond
        · exact hb
      rcases hrt : resolveTarget b.details.chapters with _ | latest
      · simp [processNovel, novelFailureDelta, hcond, hrt, shiftState, Stats.add,
          Nat.add_comm]
      · simp [processNovel, novelFailureDelta, hcond, hrt, hthrew, shiftState, Stats.add,
          Nat.add_comm]
  refine ⟨?_, hskip, hshape⟩
  calc runBatch (xs ++ (burl, b) :: ys) now st
      = runBatch ys now (processNovel burl b now (runBatch xs now st)) := by
        rw [runBatch_append]; rfl
    _ = runBatch ys now (shiftState (novelFailureDelta b) [] [] []
          (runBatch xs now st)) := by rw [hfail]
    _ = shiftState (novelFailureDelta b) [] [] []
          (runBatch ys now (runBatch xs now st)) := runBatch_shift _ _ _ _ _ _ _
    _ = shiftState (novelFailureDelta b) [] [] []
          (runBatch (xs ++ ys) now st) := by rw [runBatch_append]

/-- Witness for C8, exercising the batch-level exception case: novel B of a
three-novel batch has a throwing novel upsert; the run equals the A-C-only
run plus B's failure delta (one dbError, one skipped). -/
theorem claim8_witness :
    runBatch [("https://novelfire.net/book/a",
        mkNovelOracle (some "1") false goodChapterOracle),
      ("https://novelfire.net/book/b", throwingUpsertOracle),
      ("https://novelfire.net/book/c",
        mkNovelOracle (some "1") false goodChapterOracle)] 0
      (RunState.init emptyStore) =
    shiftState (novelFailureDelta throwingUpsertOracle) [] [] []
      (runBatch [("https://novelfire.net/book/a",
          mkNovelOracle (some "1") false goodChapterOracle),
        ("https://novelfire.net/book/c",
          mkNovelOracle (some "1") false goodChapterOracle)] 0
        (RunState.init emptyStore)) :=
  (claim8_novel_failure_isolation
    [("https://novelfire.net/book/a", mkNovelOracle (some "1") false goodChapterOracle)]
    [("https://novelfire.net/book/c", mkNovelOracle (some "1") false goodChapterOracle)]
    "https://novelfire.net/book/b" throwingUpsertOracle 0 (RunState.init emptyStore)
    (Or.inr rfl)).1

/-- Counterexample to C2 as stated: with 3 chapters to attempt and exactly
chapter 2's fetch failing while 1 and 3 succeed and persist, the final stats
show `chaptersScrapedError = 0` — not 1 as the claim demands — because
`scrapeChapterContent` catches the fetch error and returns a null body, which
`main` counts under `chaptersWithEmptyContent`. -/
theorem claim2_counterexample :
    (processNovel wUrl c2Oracle 0 (RunState.init emptyStore)).stats.chaptersAttempted = 3 ∧
    (processNovel wUrl c2Oracle 0
        (RunState.init emptyStore)).stats.chaptersScrapedSuccess = 2 ∧
    (processNovel wUrl c2Oracle 0
        (RunState.init emptyStore)).stats.chaptersWithEmptyContent = 1 ∧
    (processNovel wUrl c2Oracle 0 (RunState.init emptyStore)).stats.chaptersScrapedError = 0 ∧
    (alookup (wUrl, 1) (processNovel wUrl c2Oracle 0
        (RunState.init emptyStore)).store.chapterDocs).isSome = true ∧
    (alookup (wUrl, 3) (processNovel wUrl c2Oracle 0
        (RunState.init emptyStore)).store.chapterDocs).isSome = true := by
  decide

/-- C2 (amended).  Chapter-level failure isolation with the accounting the
code actually performs: starting from no persisted chapters, with target
`latest` and exactly one chapter `i` whose fetch throws while every other
chapter succeeds and persists, every chapter after `i` is still attempted and
persisted, and the run adds `latest` to `chaptersAttempted`, `latest - 1` to
`chaptersScrapedSuccess`, `1` to `chaptersWithEmptyContent` — the failed
fetch is swallowed by `scrapeChapterContent` and counted as empty content —
and nothing to `chaptersScrapedError`. -/
theorem claim2_chapter_failure_isolation (startUrl : String) (o : NovelOracle)
    (now latest i : Nat) (st : RunState)
    (hT : truthy o.details.title = true) (hC : truthy o.details.chaptersUrl = true)
    (hN : resolveTarget o.details.chapters = some latest)
    (hU : o.novelUpsert = NovelUpsertOutcome.ok)
    (hQ : o.cursorQueryThrows = false)
    (hK : (getHighestChapterNumber st.store startUrl).getD 0 = 0)
    (hi1 : 1 ≤ i) (hi2 : i ≤ latest)
    (hbad : fetchFailed (o.chapterOracle i))
    (hgood : ∀ j, 1 ≤ j → j ≤ latest → j ≠ i → goodChapter (o.chapterOracle j)) :
    (processNovel startUrl o now st).stats.chaptersAttempted =
        st.stats.chaptersAttempted + latest ∧
    (processNovel startUrl o now st).stats.chaptersScrapedSuccess =
        st.stats.chaptersScrapedSuccess + (latest - 1) ∧
    (processNovel startUrl o now st).stats.chaptersWithEmptyContent =
        st.stats.chaptersWithEmptyContent + 1 ∧
    (processNovel startUrl o now st).stats.chaptersScrapedError =
        st.stats.chaptersScrapedError ∧
    (∀ j, i < j → j ≤ latest →
      (startUrl, j) ∈ (processNovel startUrl o now st).fetched ∧
      (alookup (startUrl, j)
          (processNovel startUrl o now st).store.chapterDocs).isSome = true) := by
  have hrun := processNovel_ok startUrl o now latest 0 st hT hC hN hU hQ hK (by omega)
  rw [Nat.sub_zero] at hrun
  have hmemL : ∀ j : Nat, j ∈ List.range' (0 + 1) latest ↔ 1 ≤ j ∧ j < 1 + latest :=
    fun j => List.mem_range'_1
  have hiL : i ∈ List.range' (0 + 1) latest := (hmemL i).mpr ⟨hi1, by omega⟩
  have hnodup : (List.range' (0 + 1) latest).Nodup := List.nodup_range' (0 + 1) latest
  have hS : ∀ f : Stats → Nat, (∀ a b, f (Stats.add a b) = f a + f b) → f Stats.zero = 0 →
      f (sumStats ((List.range' (0 + 1) latest).map
        (fun j => stepDelta (o.chapterOracle j)))) =
      ((List.range' (0 + 1) latest).map
        (fun j => f (stepDelta (o.chapterOracle j)))).sum := by
    intro f hf hz
    rw [sumStats_proj f hf hz, List.map_map]
    rfl
  have hatt : (sumStats ((List.range' (0 + 1) latest).map
      (fun j => stepDelta (o.chapterOracle j)))).chaptersAttempted = latest := by
    rw [hS Stats.chaptersAttempted (fun a b => rfl) rfl]
    rw [sum_map_eq_length _ _ (fun j _ => stepDelta_attempted _)]
    simp
  have hsucc : (sumStats ((List.range' (0 + 1) latest).map
      (fun j => stepDelta (o.chapterOracle j)))).chaptersScrapedSuccess = latest - 1 := by
    rw [hS Stats.chaptersScrapedSuccess (fun a b => rfl) rfl]
    rw [sum_map_all_but_one _ _ i hnodup hiL
      (by rw [stepDelta_fetchFailed _ hbad])
      (fun j hj hne => by
        rw [stepDelta_good _ (hgood j ((hmemL j).mp hj).1 (by
          have := ((hmemL j).mp hj).2; omega) hne)])]
    simp
  have hemp : (sumStats ((List.range' (0 + 1) latest).map
      (fun j => stepDelta (o.chapterOracle j)))).chaptersWithEmptyContent = 1 := by
    rw [hS Stats.chaptersWithEmptyContent (fun a b => rfl) rfl]
    exact sum_map_single _ _ i 1 hnodup hiL
      (by rw [stepDelta_fetchFailed _ hbad])
      (fun j hj hne => by
        rw [stepDelta_good _ (hgood j ((hmemL j).mp hj).1 (by
          have := ((hmemL j).mp hj).2; omega) hne)])
  have herr : (sumStats ((List.range' (0 + 1) latest).map
      (fun j => stepDelta (o.chapterOracle j)))).chaptersScrapedError = 0 := by
    rw [hS Stats.chaptersScrapedError (fun a b => rfl) rfl]
    apply sum_map_zero
    intro j hj
    by_cases hne : j = i
    · subst hne
      rw [stepDelta_fetchFailed _ hbad]
    · rw [stepDelta_good _ (hgood j ((hmemL j).mp hj).1 (by
        have := ((hmemL j).mp hj).2; omega) hne)]
  rw [hrun, chapterLoop_eq]
  refine ⟨?_, ?_, ?_, ?_, ?_⟩
  · simp [Stats.add, hatt]
  · simp [Stats.add, hsucc]
  · simp [Stats.add, hemp]
  · simp [Stats.add, herr]
  · intro j hij hjlat
    constructor
    · apply List.mem_append_right
      exact List.mem_map_of_mem _ ((hmemL j).mpr ⟨by omega, by omega⟩)
    · apply loopStore_docs_present
      · exact (hmemL j).mpr ⟨by omega, by omega⟩
      · exact (hgood j (by omega) hjlat (by omega)).1
      · rw [(hgood j (by omega) hjlat (by omega)).2.1]
        intro hcontra
        cases hcontra

/-- Witness for the amended C2 at the counterexample scenario: three
chapters, chapter 2's fetch fails; attempted gains 3. -/
theorem claim2_witness :
    (processNovel wUrl c2Oracle 0 (RunState.init emptyStore)).stats.chaptersAttempted =
      (RunState.init emptyStore).stats.chaptersAttempted + 3 :=
  (claim2_chapter_failure_isolation wUrl c2Oracle 0 3 2 (RunState.init emptyStore)
    (by decide) (by decide) (by decide) rfl rfl (by decide) (by decide) (by decide)
    ⟨rfl, rfl⟩
    (fun j h1 h2 hne => by
      have hcc : c2Oracle.chapterOracle j = goodChapterOracle := by
        simp [c2Oracle, c2ChapterOracle, hne]
      rw [hcc]
      exact ⟨by decide, rfl, rfl, rfl⟩)).1

/-- Counterexample to C3 as stated: chapter 1 scrapes successfully with
non-empty content (success counter 1) and its `upsertChapter` is attempted
but throws (one dbError); `addChapterReference` is then NOT attempted (empty
reference-call trace), contradicting "both operations are attempted even if
one of them errors". -/
theorem claim3_counterexample :
    (processNovel wUrl c3Oracle 0
        (RunState.init emptyStore)).stats.chaptersScrapedSuccess = 1 ∧
    (processNovel wUrl c3Oracle 0 (RunState.init emptyStore)).stats.dbErrors = 1 ∧
    (processNovel wUrl c3Oracle 0 (RunState.init emptyStore)).upsertCalls = [(wUrl, 1)] ∧
    (processNovel wUrl c3Oracle 0 (RunState.init emptyStore)).refCalls = [] := by
  decide

/-- C3 (amended).  For every chapter whose scrape yields truthy content the
loop attempts `upsertChapter` (exactly the truthy-content chapters appear in
the upsert-call trace); `addChapterReference` is attempted for exactly those
of them whose upsert resolved with a document — never when the upsert errors,
and always after the upsert, by definition of `chapterStep` (the reference
add is applied to the store produced by the chapter upsert); a persistence
error adds its `stepDelta` contribution to `dbErrors` and does not stop the
loop: every chapter of the list is still fetched. -/
theorem claim3_persist_order (novelUrl base : String) (ora : Nat → ChapterOracle)
    (st : RunState) (l : List Nat) :
    (chapterLoop novelUrl base ora st l).upsertCalls =
      st.upsertCalls ++
        (l.filter (fun i => truthy (extractedContent (ora i).fetch))).map
          (fun i => (novelUrl, i)) ∧
    (chapterLoop novelUrl base ora st l).refCalls =
      st.refCalls ++
        (l.filter (fun i =>
            truthy (extractedContent (ora i).fetch) && upsertOk (ora i).upsert)).map
          (fun i => (novelUrl, i)) ∧
    (chapterLoop novelUrl base ora st l).fetched =
      st.fetched ++ l.map (fun i => (novelUrl, i)) ∧
    (chapterLoop novelUrl base ora st l).stats.dbErrors =
      st.stats.dbErrors +
        (l.map (fun i => (stepDelta (ora i)).dbErrors)).sum := by
  rw [chapterLoop_eq]
  refine ⟨rfl, rfl, rfl, ?_⟩
  have hS := sumStats_proj Stats.dbErrors (fun a b => rfl) rfl
    (l.map (fun i => stepDelta (ora i)))
  simp only [Stats.add, hS, List.map_map]
  rfl

end Asterion

